import Mathlib

/-!
Verification of the smart bird feeder repository: the per-frame
classification-and-deterrence policy in `bird_classify.py` and the Flask
result viewer in `app.py`, shallowly embedded in Lean 4.

Conventions of the embedding:
* Classifier output entries are `Class` records (the pycoral `Class`
  namedtuple: a class `id` and a `score`); scores are modelled as rationals.
* The label file is modelled as a function `labels : Nat -> String`
  (class id to label string).
* The flat file store is an association list from base file name to file
  content; the directory prefix of `'%s/img-%s.%s' % (path, tag, ext)` is
  the storage directory itself and is dropped from the keys.
* JSON files are modelled at the level of parsed JSON values: `json.dump`
  writes the JSON value of the Python object and `json.load` reads it back;
  the concrete character syntax of JSON text is not modelled.
* Side effects of the frame callback are recorded as an explicit trace of
  `Effect` events, in the order the code performs them.
-/

namespace BirdFeeder

/-- A parsed JSON value (the image of `json.dump` / preimage of `json.load`). -/
inductive JSON where
  | null : JSON
  | bool (b : Bool) : JSON
  | num (q : ℚ) : JSON
  | str (s : String) : JSON
  | arr (elems : List JSON) : JSON
  | obj (fields : List (String × JSON)) : JSON

/-- One classifier output entry: the pycoral `Class(id, score)` namedtuple
returned by `get_classes`. -/
structure Class where
  id : ℕ
  score : ℚ
  deriving DecidableEq

/-- Modelled from the spec: the external classifier adapter
`get_classes(interpreter, top_k)` returns the ranked (descending score)
classification list truncated to the best `top_k` entries.  The ranked list
itself is the opaque classifier's output and is universally quantified in the
theorems; the adapter is the truncation. -/
def get_classes (ranked : List Class) (top_k : ℕ) : List Class :=
  ranked.take top_k

/-- The decision of the deterrence policy (spec section 4.1). -/
inductive Decision where
  | NoAction : Decision
  | Deter (matchedLabel : String) : Decision
  deriving DecidableEq

/-- One observable side effect of the frame callback. -/
inductive Effect where
  | play (sound : String) : Effect
  | save (image : ℕ) (results : List Class) (storage : String) : Effect
  deriving DecidableEq

/-- A Python runtime error relevant to this program. -/
inductive PyErr where
  | nameError (name : String) : PyErr
  deriving DecidableEq

/-- The `DETER_LABELS` list defined in `main` of `bird_classify.py`. -/
def DETER_LABELS : List String :=
  ["fox squirrel, eastern fox squirrel, Sciurus niger",
   "heron",
   "otter",
   "cat",
   "mink"]

/-- The membership test `labels[result.id] in DETER_LABELS`
(`bird_classify.py` line 138): Python `in` over a list of strings, which is
exact string equality against each element. -/
def labelMatches (label : String) (deter : List String) : Bool :=
  deter.contains label

/-- The decision computed by the `for result in results:` loop of
`user_callback` (lines 137-141): scan the entries in order and stop (`break`)
at the first entry whose label is in the deter list. -/
def deterLoopDecision (labels : ℕ → String) (deter : List String) :
    List Class → Decision
  | [] => Decision.NoAction
  | c :: rest =>
    if labelMatches (labels c.id) deter then Decision.Deter (labels c.id)
    else deterLoopDecision labels deter rest

/-- The per-frame deterrence policy `evaluate` of spec section 4.1, as the
code realises it: `user_callback` classifies with
`get_classes(interpreter, top_k=1)` (line 131) and feeds the result to the
first-match loop. -/
def evaluate (labels : ℕ → String) (deter : List String)
    (ranked : List Class) : Decision :=
  deterLoopDecision labels deter (get_classes ranked 1)

/-- The effect trace of the `for result in results:` loop of `user_callback`
(lines 137-141): on the first matching entry the code plays the deterrent
sound, then saves the image together with the full `results` list, then
breaks.  `results` is the full classification list in scope; the recursion
argument is the remaining suffix being scanned. -/
def deterLoopEffects (labels : ℕ → String) (deter : List String)
    (sound storage : String) (image : ℕ) (results : List Class) :
    List Class → List Effect
  | [] => []
  | c :: rest =>
    if labelMatches (labels c.id) deter then
      [Effect.play sound, Effect.save image results storage]
    else deterLoopEffects labels deter sound storage image results rest

/-- Local names of `user_callback` (its parameters and every name assigned
inside it), per Python scoping rules. -/
def userCallbackLocalNames : List String :=
  ["image", "svg_canvas", "start_time", "results", "end_time", "result"]

/-- Names bound in the enclosing scope, the body of `main`, before
`user_callback` runs. -/
def mainLocalNames : List String :=
  ["parser", "args", "interpreter", "labels", "inference_size",
   "DETER_LABELS", "user_callback"]

/-- Module-level names of `bird_classify.py` (imports and top-level
definitions). -/
def moduleGlobalNames : List String :=
  ["argparse", "time", "logging", "json", "Image", "playsound",
   "read_label_file", "make_interpreter", "common", "get_classes",
   "gstreamer", "save_data", "print_results", "do_training",
   "user_selections", "main"]

/-- Python builtins referenced by the module. -/
def pythonBuiltinNames : List String :=
  ["print", "int", "open", "len", "set"]

/-- The full chain of scopes a name reference inside `user_callback` is
resolved against: locals, then `main`'s locals, then module globals, then
builtins. -/
def userCallbackScopeNames : List String :=
  userCallbackLocalNames ++ mainLocalNames ++ moduleGlobalNames ++
    pythonBuiltinNames

/-- The first of `names` (in evaluation order) that fails name resolution
inside `user_callback`; evaluating it raises `NameError`. -/
def firstUnresolved (names : List String) : Option String :=
  names.find? (fun n => !(userCallbackScopeNames.contains n))

/-- The frame callback `user_callback` (lines 127-141), as a function from
its inputs to either a raised error or the trace of side effects it
performs.  The `if args.print:` branch calls
`print_results(start_time, last_time, end_time, results)` (line 135), which
first resolves each argument name; an unresolved name raises `NameError`
before the deterrence loop runs. -/
def user_callback (printFlag : Bool) (labels : ℕ → String)
    (deter : List String) (sound storage : String) (image : ℕ)
    (ranked : List Class) : Except PyErr (List Effect) :=
  let results := get_classes ranked 1
  let loopEffects :=
    deterLoopEffects labels deter sound storage image results results
  if printFlag then
    match firstUnresolved ["start_time", "last_time", "end_time", "results"]
      with
    | some n => Except.error (PyErr.nameError n)
    | none => Except.ok loopEffects
  else Except.ok loopEffects

/-- The function `do_training(results, last_results, top_k)` (lines 67-77): collect the
first components (`label[0]`) of both result lists, intersect them as sets,
and report a difference when the intersection has fewer than `top_k`
elements. -/
def do_training (results last_results : List (String × ℚ))
    (top_k : ℕ) : Bool :=
  let new_labels := results.map Prod.fst
  let old_labels := last_results.map Prod.fst
  let shared_labels := new_labels.toFinset ∩ old_labels.toFinset
  decide (shared_labels.card < top_k)

/-! ### The tag `'%010d' % int(time.monotonic()*1000)` -/

/-- Little-endian decimal digits of `n` (empty for 0); the fuel argument only
drives the recursion and any value at least `n` is enough. -/
def decDigitsAux : ℕ → ℕ → List ℕ
  | 0, _ => []
  | fuel + 1, n => if n = 0 then [] else n % 10 :: decDigitsAux fuel (n / 10)

/-- Big-endian decimal digit list of `n`, as `'%d'` renders it (so `0`
renders as the single digit `0`). -/
def decDigits (n : ℕ) : List ℕ :=
  if n = 0 then [0] else (decDigitsAux n n).reverse

/-- The format `'%010d' % ms` (line 47): the decimal rendering of `ms`, left-padded with
`'0'` to a minimum width of 10 characters. -/
def tagOf (ms : ℕ) : String :=
  String.mk (List.replicate (10 - (decDigits ms).length) '0' ++
    (decDigits ms).map Nat.digitChar)

/-- Numeric value of a decimal digit character. -/
def charVal (c : Char) : ℕ := c.toNat - 48

/-- Read a decimal digit string back as a number (inverse of `tagOf`). -/
def untag (s : String) : ℕ :=
  Nat.ofDigits 10 ((s.data.map charVal).reverse)

/-! ### The file store -/

/-- Content of one file in the storage directory. -/
inductive FileContent where
  | img (blob : ℕ) : FileContent
  | json (v : JSON) : FileContent

/-- The storage directory: an association list from base file name to
content.  Well-formed stores have pairwise distinct names. -/
abbrev Store := List (String × FileContent)

/-- The file names in the directory (`os.listdir`). -/
def listdir (s : Store) : List String :=
  s.map Prod.fst

/-- Look a file up by name. -/
def lookupFile : Store → String → Option FileContent
  | [], _ => none
  | (n, c) :: rest, name =>
    if n = name then some c else lookupFile rest name

/-- Python `open(name, 'w')` followed by a full write: replaces the content of an
existing file of that name, otherwise creates the file. -/
def pyWriteFile (s : Store) (name : String) (content : FileContent) :
    Store :=
  if (listdir s).contains name then
    s.map (fun e => if e.1 = name then (name, content) else e)
  else (name, content) :: s

/-- Serialization `json.dump` of one pycoral `Class` namedtuple: tuples serialize as JSON
arrays, so the record becomes the two-element array `[id, score]`. -/
def dumpClass (c : Class) : JSON :=
  JSON.arr [JSON.num c.id, JSON.num c.score]

/-- Serialization `json.dump(results, f)` (line 55): the list of `Class` namedtuples
serializes as a JSON array of two-element `[id, score]` arrays. -/
def dumpResults (rs : List Class) : JSON :=
  JSON.arr (rs.map dumpClass)

/-- The top-level records of a sidecar JSON value. -/
def recordsOf : JSON → List JSON
  | JSON.arr xs => xs
  | _ => []

/-- Whether a sidecar record has the shape the spec describes: a JSON object
with a string `label` field and a numeric `score` field. -/
def recordIsLabelScoreObj : JSON → Bool
  | JSON.obj kvs =>
    (match kvs.lookup "label" with
     | some (JSON.str _) => true
     | _ => false) &&
    (match kvs.lookup "score" with
     | some (JSON.num _) => true
     | _ => false)
  | _ => false

/-- The function `save_data(image, results, path, ext)` (lines 44-55) against a store:
derive the tag from the supplied millisecond monotonic-clock reading, write
the image file `img-<tag>.<ext>`, then write the sidecar `img-<tag>.json`
holding `json.dump(results)`.  The call site uses the default `ext='png'`. -/
def save_data (s : Store) (image : ℕ) (results : List Class)
    (msReading : ℕ) (ext : String) : Store :=
  let tag := tagOf msReading
  let name := "img-" ++ tag ++ "." ++ ext
  let s1 := pyWriteFile s name (FileContent.img image)
  let results_name := "img-" ++ tag ++ ".json"
  pyWriteFile s1 results_name (FileContent.json (dumpResults results))

/-- Python `suffix`-test `filename.endswith(suf)`. -/
def pyEndsWith (s suf : String) : Bool :=
  suf.data.isSuffixOf s.data

/-- Fuel-driven core of Python `str.replace`: replace every non-overlapping
occurrence of `pat`, scanning left to right and continuing after each
replacement. -/
def pyReplaceAux (pat repl : List Char) : ℕ → List Char → List Char
  | _, [] => []
  | 0, l => l
  | fuel + 1, c :: rest =>
    if pat.isPrefixOf (c :: rest) && !pat.isEmpty then
      repl ++ pyReplaceAux pat repl fuel (List.drop pat.length (c :: rest))
    else c :: pyReplaceAux pat repl fuel rest

/-- Python `s.replace(pat, repl)` for a non-empty pattern. -/
def pyReplace (s pat repl : String) : String :=
  String.mk (pyReplaceAux pat.data repl.data s.data.length s.data)

/-- One listed visit of the viewer: the dictionary
`{'image': filename, 'results': results}` built by `app.py`. -/
structure Visit where
  image : String
  results : JSON

/-- The body of the `index` loop of `app.py` (lines 14-20) for one directory
entry: if the file name ends in `.png` and the sidecar named with `.png`
replaced by `.json` exists, read it and emit the visit dictionary. -/
def indexFile (s : Store) (filename : String) : Option Visit :=
  if pyEndsWith filename ".png" then
    match lookupFile s (pyReplace filename ".png" ".json") with
    | some (FileContent.json results) => some (Visit.mk filename results)
    | _ => none
  else none

/-- The `index` route of `app.py` (lines 10-21): for every `.png` file whose
sidecar `.json` exists, read the sidecar and emit a visit pairing the image
file name with the parsed results. -/
def indexVisits (s : Store) : List Visit :=
  (listdir s).filterMap (indexFile s)

/-- Python `'deter' in results` for a parsed JSON value `results` and a
string needle: list membership is equality against each element (a string
equals only an equal string), dict membership is key lookup, string
membership is the substring test. -/
def pyInStr (needle : String) : JSON → Bool
  | JSON.arr xs =>
    xs.any fun j =>
      match j with
      | JSON.str t => t == needle
      | _ => false
  | JSON.obj kvs => kvs.any fun kv => kv.1 == needle
  | JSON.str s => decide (List.IsInfix needle.data s.data)
  | _ => false

/-- The body of the `review_deter_triggers` loop of `app.py` (lines 34-39)
for one directory entry: if the file name ends in `.json`, parse it and emit
a trigger entry when `'deter' in results` holds, with the entry's image name
obtained by replacing `.json` with `.png`. -/
def reviewFile (s : Store) (filename : String) : Option Visit :=
  if pyEndsWith filename ".json" then
    match lookupFile s filename with
    | some (FileContent.json results) =>
      if pyInStr "deter" results then
        some (Visit.mk (pyReplace filename ".json" ".png") results)
      else none
    | _ => none
  else none

/-- The `review_deter_triggers` route of `app.py` (lines 30-40). -/
def review_deter_triggers (s : Store) : List Visit :=
  (listdir s).filterMap (reviewFile s)

/-- The label strings of the records of a sidecar JSON value, read the way
the spec describes the records (objects with a `label` field).  This is the
spec's view, used to state the deterrence predicate over persisted visits. -/
def jsonLabels (v : JSON) : List String :=
  (recordsOf v).filterMap fun r =>
    match r with
    | JSON.obj kvs =>
      match kvs.lookup "label" with
      | some (JSON.str s) => some s
      | _ => none
    | _ => none

/-- Modelled from the spec: the deterrence predicate over a persisted
visit's ClassificationResult — at least one of its labels is in the
configured deterrent label set (spec sections 3 and 6). -/
def specIsDeterTrigger (v : JSON) : Bool :=
  (jsonLabels v).any fun l => labelMatches l DETER_LABELS

/-- A store holding one persisted visit whose sidecar even has the record
shape the spec describes, with the deterred label `cat`. -/
def deterStoreExample : Store :=
  [("img-0000012345.png", FileContent.img 0),
   ("img-0000012345.json", FileContent.json (JSON.arr
     [JSON.obj [("label", JSON.str "cat"), ("score", JSON.num (92/100))]]))]

/-- Apply one recorded effect to a store: playing a sound does not touch the
store; a save effect runs `save_data` with the clock reading of the moment. -/
def applyEffect (ms : ℕ) (s : Store) : Effect → Store
  | Effect.play _ => s
  | Effect.save image results storage =>
    let _ := storage
    save_data s image results ms "png"

/-- Fold a trace of effects over a store. -/
def storeAfterEffects (s : Store) (effects : List Effect) (ms : ℕ) :
    Store :=
  effects.foldl (applyEffect ms) s

/-- The tag sequence assigned by a sequence of `save_data` calls whose
millisecond clock readings are `readings`. -/
def saveTags (readings : List ℕ) : List String :=
  readings.map tagOf

/-! ### Helper lemmas -/

theorem get_classes_one_cons (c : Class) (rest : List Class) :
    get_classes (c :: rest) 1 = [c] := by
  simp [get_classes]

theorem deterLoopEffects_eq_of_deter (labels : ℕ → String)
    (deter : List String) (sound storage : String) (image : ℕ)
    (full : List Class) (l : String) (L : List Class)
    (h : deterLoopDecision labels deter L = Decision.Deter l) :
    deterLoopEffects labels deter sound storage image full L =
      [Effect.play sound, Effect.save image full storage] := by
  induction L with
  | nil => simp [deterLoopDecision] at h
  | cons c rest ih =>
    cases hm : labelMatches (labels c.id) deter with
    | true => simp [deterLoopEffects, hm]
    | false =>
      simp only [deterLoopDecision, hm, Bool.false_eq_true, if_false] at h
      simp only [deterLoopEffects, hm, Bool.false_eq_true, if_false]
      exact ih h

theorem deterLoopEffects_eq_of_noaction (labels : ℕ → String)
    (deter : List String) (sound storage : String) (image : ℕ)
    (full : List Class) (L : List Class)
    (h : deterLoopDecision labels deter L = Decision.NoAction) :
    deterLoopEffects labels deter sound storage image full L = [] := by
  induction L with
  | nil => simp [deterLoopEffects]
  | cons c rest ih =>
    cases hm : labelMatches (labels c.id) deter with
    | true => simp [deterLoopDecision, hm] at h
    | false =>
      simp only [deterLoopDecision, hm, Bool.false_eq_true, if_false] at h
      simp only [deterLoopEffects, hm, Bool.false_eq_true, if_false]
      exact ih h

theorem lookupFile_eq_some_of_mem (s : Store) (h : (listdir s).Nodup)
    (n : String) (c : FileContent) (hm : (n, c) ∈ s) :
    lookupFile s n = some c := by
  induction s with
  | nil => simp at hm
  | cons e rest ih =>
    obtain ⟨en, ec⟩ := e
    simp only [listdir, List.map_cons, List.nodup_cons] at h
    rcases List.mem_cons.mp hm with heq | hmem
    · cases heq
      simp [lookupFile]
    · have hne : en ≠ n := by
        intro hEq
        exact h.1 (hEq ▸ List.mem_map.mpr ⟨(n, c), hmem, rfl⟩)
      simpa [lookupFile, hne] using ih h.2 hmem

theorem mem_of_lookupFile_eq_some (s : Store) (n : String)
    (c : FileContent) (h : lookupFile s n = some c) : (n, c) ∈ s := by
  induction s with
  | nil => simp [lookupFile] at h
  | cons e rest ih =>
    obtain ⟨en, ec⟩ := e
    by_cases he : en = n
    · subst he
      simp only [lookupFile, if_true, eq_self_iff_true,
        Option.some.injEq] at h
      subst h
      exact List.mem_cons_self _ _
    · simp only [lookupFile, if_neg he] at h
      exact List.mem_cons_of_mem _ (ih h)

/-! ### The claims -/

/-- Claim C1: for every ClassificationResult, the per-frame deterrence
policy returns `Deter(label)` when the top-ranked (first) label is a member
of the configured deter label set, and `NoAction` for every other input,
including the empty ClassificationResult. -/
theorem claim1_evaluate_top_label (labels : ℕ → String)
    (deter : List String) (c : Class) (rest : List Class) :
    evaluate labels deter [] = Decision.NoAction ∧
    (labelMatches (labels c.id) deter = true →
      evaluate labels deter (c :: rest) = Decision.Deter (labels c.id)) ∧
    (labelMatches (labels c.id) deter = false →
      evaluate labels deter (c :: rest) = Decision.NoAction) := by
  refine ⟨rfl, ?_, ?_⟩ <;> intro h <;>
    simp [evaluate, get_classes_one_cons, deterLoopDecision, h]

/-- Witness for C1: a deterred top label, a non-deterred top label, and the
empty result, on the fixture deter set of the code. -/
theorem claim1_evaluate_top_label_witness :
    evaluate (fun _ => "cat") DETER_LABELS [Class.mk 0 (92/100)] =
      Decision.Deter "cat" ∧
    evaluate (fun _ => "sparrow") DETER_LABELS [Class.mk 0 (81/100)] =
      Decision.NoAction ∧
    evaluate (fun _ => "cat") DETER_LABELS [] = Decision.NoAction :=
  ⟨(claim1_evaluate_top_label (fun _ => "cat") DETER_LABELS
      (Class.mk 0 (92/100)) []).2.1 (by decide),
   (claim1_evaluate_top_label (fun _ => "sparrow") DETER_LABELS
      (Class.mk 0 (81/100)) []).2.2 (by decide),
   (claim1_evaluate_top_label (fun _ => "cat") DETER_LABELS
      (Class.mk 0 (92/100)) []).1⟩

/-- Claim C4: `do_training` (the spec's `hasDiverged`) returns true iff the
intersection of the two label sets has fewer than `top_k` elements;
consequently comparing a result with itself never diverges when it has at
least `top_k` distinct labels. -/
theorem claim4_hasDiverged_iff (cur prev : List (String × ℚ)) (k : ℕ) :
    (do_training cur prev k = true ↔
      ((cur.map Prod.fst).toFinset ∩ (prev.map Prod.fst).toFinset).card
        < k) ∧
    (∀ X : List (String × ℚ), k ≤ (X.map Prod.fst).toFinset.card →
      do_training X X k = false) := by
  constructor
  · simp [do_training]
  · intro X hk
    simp only [do_training, Finset.inter_self, decide_eq_false_iff_not,
      not_lt]
    exact hk

/-- Witness for C4: spec scenario 3 (intersection of size 1 against
`top_k = 3` diverges) and self-comparison with 3 distinct labels. -/
theorem claim4_hasDiverged_iff_witness :
    do_training [("cat", 9/10), ("fox", 1/2)]
      [("cat", 1/3), ("dog", 1/4), ("bird", 1/5)] 3 = true ∧
    do_training [("cat", 1/2), ("dog", 1/3), ("bird", 1/4)]
      [("cat", 1/2), ("dog", 1/3), ("bird", 1/4)] 3 = false :=
  ⟨(claim4_hasDiverged_iff [("cat", 9/10), ("fox", 1/2)]
      [("cat", 1/3), ("dog", 1/4), ("bird", 1/5)] 3).1.mpr (by decide),
   (claim4_hasDiverged_iff [("cat", 1/2), ("dog", 1/3), ("bird", 1/4)]
      [("cat", 1/2), ("dog", 1/3), ("bird", 1/4)] 3).2
      [("cat", 1/2), ("dog", 1/3), ("bird", 1/4)] (by decide)⟩

/-- Claim C5: on a frame whose decision is `Deter`, the callback plays the
deterrent sound first and then saves the image with the full classification
result, and performs exactly these two sink calls. -/
theorem claim5_deter_effect_order (labels : ℕ → String)
    (deter : List String) (sound storage : String) (image : ℕ)
    (ranked : List Class) (l : String)
    (h : evaluate labels deter ranked = Decision.Deter l) :
    user_callback false labels deter sound storage image ranked =
      Except.ok [Effect.play sound,
        Effect.save image (get_classes ranked 1) storage] := by
  simp only [user_callback, if_false, Bool.false_eq_true]
  exact congrArg Except.ok
    (deterLoopEffects_eq_of_deter labels deter sound storage image
      (get_classes ranked 1) l (get_classes ranked 1) h)

/-- Witness for C5: spec scenario 1, a top label `cat` against the code's
deter set. -/
theorem claim5_deter_effect_order_witness :
    user_callback false (fun _ => "cat") DETER_LABELS "deter.wav" "store" 7
        [Class.mk 0 (92/100)] =
      Except.ok [Effect.play "deter.wav",
        Effect.save 7 (get_classes [Class.mk 0 (92/100)] 1) "store"] :=
  claim5_deter_effect_order (fun _ => "cat") DETER_LABELS "deter.wav"
    "store" 7 [Class.mk 0 (92/100)] "cat" (by decide)

/-- Claim C7: deterrence matching is case-sensitive exact string equality —
a label matches the configured deter list exactly when some configured entry
is identical to it character for character; in particular `"Cat"` does not
match the configured `"cat"`, which does match itself. -/
theorem claim7_exact_string_match (label : String) (deter : List String) :
    (labelMatches label deter = true ↔
      ∃ d ∈ deter, label.data = d.data) ∧
    labelMatches "Cat" DETER_LABELS = false ∧
    labelMatches "cat" DETER_LABELS = true := by
  refine ⟨?_, by decide, by decide⟩
  have hmem : labelMatches label deter = true ↔ label ∈ deter := by
    simp [labelMatches, List.contains]
  rw [hmem]
  constructor
  · intro h
    exact ⟨label, h, rfl⟩
  · rintro ⟨d, hd, he⟩
    have : label = d := by
      cases label
      cases d
      exact congrArg String.mk (by simpa using he)
    exact this ▸ hd

/-- Claim C9: with the print-to-console flag enabled, the callback
references `last_time`, which is bound in none of the scopes visible inside
`user_callback`, so every frame raises `NameError` before the deterrence
loop and its side effects run. -/
theorem claim9_print_flag_name_error (labels : ℕ → String)
    (deter : List String) (sound storage : String) (image : ℕ)
    (ranked : List Class) :
    user_callback true labels deter sound storage image ranked =
      Except.error (PyErr.nameError "last_time") ∧
    "last_time" ∉ userCallbackScopeNames :=
  ⟨rfl, by decide⟩

/-- Claim C8: on a frame whose decision is `NoAction`, the callback performs
no side effects — the effect trace is empty and applying it leaves any store
unchanged. -/
theorem claim8_noaction_no_effects (labels : ℕ → String)
    (deter : List String) (sound storage : String) (image : ℕ)
    (ranked : List Class)
    (h : evaluate labels deter ranked = Decision.NoAction) :
    user_callback false labels deter sound storage image ranked =
      Except.ok [] ∧
    ∀ (s : Store) (ms : ℕ), storeAfterEffects s [] ms = s := by
  refine ⟨?_, fun s ms => rfl⟩
  simp only [user_callback, if_false, Bool.false_eq_true]
  exact congrArg Except.ok
    (deterLoopEffects_eq_of_noaction labels deter sound storage image
      (get_classes ranked 1) (get_classes ranked 1) h)

/-- Witness for C8: spec scenario 2, top label `sparrow`. -/
theorem claim8_noaction_no_effects_witness :
    user_callback false (fun _ => "sparrow") DETER_LABELS "deter.wav"
        "store" 7 [Class.mk 0 (81/100)] = Except.ok [] :=
  (claim8_noaction_no_effects (fun _ => "sparrow") DETER_LABELS "deter.wav"
    "store" 7 [Class.mk 0 (81/100)] (by decide)).1

/-- Claim C10: comparing a result with itself still reports a divergence
whenever the result has fewer than `top_k` distinct labels. -/
theorem claim10_self_diverges_when_few_labels (X : List (String × ℚ))
    (k : ℕ) (h : (X.map Prod.fst).toFinset.card < k) :
    do_training X X k = true := by
  simpa [do_training, Finset.inter_self] using h

/-- Witness for C10: a single-label result against `top_k = 3`. -/
theorem claim10_self_diverges_when_few_labels_witness :
    do_training [("cat", 81/100)] [("cat", 81/100)] 3 = true :=
  claim10_self_diverges_when_few_labels [("cat", 81/100)] 3 (by decide)

/-- Counterexample to claim C2 as stated: `deterStoreExample` holds a visit
whose ClassificationResult contains the label `cat`, which satisfies the
deterrence predicate, yet the trigger-review route returns nothing, because
the code tests `'deter' in results` instead of the deterrence predicate. -/
theorem claim2_counterexample :
    specIsDeterTrigger (JSON.arr
      [JSON.obj [("label", JSON.str "cat"), ("score", JSON.num (92/100))]])
      = true ∧
    review_deter_triggers deterStoreExample = [] :=
  ⟨rfl, rfl⟩

/-- Claim C2 as amended: for every store with distinct file names, the
trigger-review route returns exactly the entries of `.json` files whose
parsed value contains the literal string `deter` under Python membership
(never the case for the stores `save_data` writes), paired with the file
name with `.json` replaced by `.png`; the deterrent-label predicate is not
consulted. -/
theorem claim2_literal_deter_membership (s : Store)
    (h : (listdir s).Nodup) (v : Visit) :
    v ∈ review_deter_triggers s ↔
      ∃ fn content, (fn, FileContent.json content) ∈ s ∧
        pyEndsWith fn ".json" = true ∧ pyInStr "deter" content = true ∧
        v = Visit.mk (pyReplace fn ".json" ".png") content := by
  unfold review_deter_triggers
  rw [List.mem_filterMap]
  constructor
  · rintro ⟨fn, hfn, hf⟩
    by_cases hend : pyEndsWith fn ".json" = true
    · cases hlook : lookupFile s fn with
      | none => simp [reviewFile, hend, hlook] at hf
      | some fc =>
        cases fc with
        | img b => simp [reviewFile, hend, hlook] at hf
        | json content =>
          by_cases hin : pyInStr "deter" content = true
          · simp only [reviewFile, hend, if_true, hlook, hin,
              Option.some.injEq] at hf
            exact ⟨fn, content, mem_of_lookupFile_eq_some s fn _ hlook,
              hend, hin, hf.symm⟩
          · simp [reviewFile, hend, hlook, hin] at hf
    · simp [reviewFile, hend] at hf
  · rintro ⟨fn, content, hmem, hend, hin, hv⟩
    refine ⟨fn, List.mem_map.mpr ⟨(fn, FileContent.json content), hmem,
      rfl⟩, ?_⟩
    have hlook := lookupFile_eq_some_of_mem s h fn _ hmem
    simp [reviewFile, hend, hlook, hin, hv]

/-- Witness for the amended C2: a sidecar whose array literally contains the
string `deter` is returned by the route. -/
theorem claim2_literal_deter_membership_witness :
    Visit.mk "img-0000054321.png" (JSON.arr [JSON.str "deter"]) ∈
      review_deter_triggers
        [("img-0000054321.json",
          FileContent.json (JSON.arr [JSON.str "deter"]))] :=
  (claim2_literal_deter_membership _ (by decide) _).mpr
    ⟨"img-0000054321.json", JSON.arr [JSON.str "deter"],
      List.mem_cons_self _ _, rfl, rfl, rfl⟩

theorem pyWriteFile_fresh (s : Store) (name : String) (c : FileContent)
    (h : name ∉ listdir s) : pyWriteFile s name c = (name, c) :: s := by
  have hb : (listdir s).contains name = false := by
    simpa [List.contains] using h
  simp only [pyWriteFile, hb, Bool.false_eq_true, if_false]

theorem save_data_fresh (s : Store) (image : ℕ) (results : List Class)
    (h1 : "img-0000012345.png" ∉ listdir s)
    (h2 : "img-0000012345.json" ∉ listdir s) :
    save_data s image results 12345 "png" =
      ("img-0000012345.json", FileContent.json (dumpResults results)) ::
        ("img-0000012345.png", FileContent.img image) :: s := by
  have ht : tagOf 12345 = "0000012345" := rfl
  have hpng : "img-" ++ tagOf 12345 ++ "." ++ "png" = "img-0000012345.png" :=
    by rw [ht]; decide
  have hjson : "img-" ++ tagOf 12345 ++ ".json" = "img-0000012345.json" :=
    by rw [ht]; decide
  simp only [save_data]
  rw [hpng, hjson, pyWriteFile_fresh s _ _ h1]
  apply pyWriteFile_fresh
  simp only [listdir, List.map_cons, List.mem_cons]
  rintro (hEq | hmem)
  · exact absurd hEq (by decide)
  · exact h2 hmem

theorem dumpClass_injective : Function.Injective dumpClass := by
  intro c d h
  simp only [dumpClass, JSON.arr.injEq, List.cons.injEq, JSON.num.injEq,
    and_true] at h
  obtain ⟨h1, h2⟩ := h
  cases c
  cases d
  simp only [Class.mk.injEq]
  exact ⟨Nat.cast_injective h1, h2⟩

theorem dumpResults_injective : Function.Injective dumpResults := by
  intro rs1 rs2 h
  simp only [dumpResults, JSON.arr.injEq] at h
  exact List.map_injective_iff.mpr dumpClass_injective h

theorem indexFile_image (st : Store) (fn : String) (v : Visit)
    (h : indexFile st fn = some v) : v.image = fn := by
  by_cases hend : pyEndsWith fn ".png" = true
  · cases hlook : lookupFile st (pyReplace fn ".png" ".json") with
    | none => simp [indexFile, hend, hlook] at h
    | some fc =>
      cases fc with
      | img b => simp [indexFile, hend, hlook] at h
      | json content =>
        simp only [indexFile, hend, if_true, hlook,
          Option.some.injEq] at h
        rw [← h]
  · simp [indexFile, hend] at h

/-- Counterexample to claim C3 as stated: the sidecar record written by
`save_data` for the classification entry `Class 281 0.92` is the two-element
number array `[281, 0.92]` — `json.dump` of the `(id, score)` namedtuple —
and not an object with a string `label` field and a numeric `score` field. -/
theorem claim3_counterexample :
    lookupFile (save_data [] 7 [Class.mk 281 (92/100)] 12345 "png")
        "img-0000012345.json" =
      some (FileContent.json (JSON.arr
        [JSON.arr [JSON.num 281, JSON.num (92/100)]])) ∧
    recordIsLabelScoreObj (JSON.arr [JSON.num 281, JSON.num (92/100)]) =
      false :=
  ⟨rfl, rfl⟩

/-- Claim C3 as amended: every record of the JSON sidecar is a two-element
array of numbers (the class id and the score), and writing a visit with tag
`0000012345` into a store that has no files of that tag, then listing the
store, returns exactly one visit for that tag; its result is the serialized
form of the original entries, and that serialization is injective, so the
original `(id, score)` pairs are recovered unchanged. -/
theorem claim3_store_roundtrip (s : Store) (image : ℕ)
    (results : List Class)
    (h1 : "img-0000012345.png" ∉ listdir s)
    (h2 : "img-0000012345.json" ∉ listdir s) :
    (indexVisits (save_data s image results 12345 "png")).filter
        (fun v => v.image == "img-0000012345.png") =
      [Visit.mk "img-0000012345.png" (dumpResults results)] ∧
    (∀ rs' : List Class,
      dumpResults rs' = dumpResults results → rs' = results) ∧
    (∀ r ∈ recordsOf (dumpResults results),
      ∃ a b : ℚ, r = JSON.arr [JSON.num a, JSON.num b]) := by
  refine ⟨?_, fun rs' h => dumpResults_injective h, ?_⟩
  · rw [save_data_fresh s image results h1 h2]
    have hjsonName : pyEndsWith "img-0000012345.json" ".png" = false := rfl
    have hpngEnds : pyEndsWith "img-0000012345.png" ".png" = true := rfl
    have hrepl :
        pyReplace "img-0000012345.png" ".png" ".json" =
          "img-0000012345.json" := rfl
    unfold indexVisits
    simp only [listdir, List.map_cons]
    have hf1 : indexFile
        (("img-0000012345.json", FileContent.json (dumpResults results)) ::
          ("img-0000012345.png", FileContent.img image) :: s)
        "img-0000012345.json" = none := by
      simp [indexFile, hjsonName]
    have hf2 : indexFile
        (("img-0000012345.json", FileContent.json (dumpResults results)) ::
          ("img-0000012345.png", FileContent.img image) :: s)
        "img-0000012345.png" =
        some (Visit.mk "img-0000012345.png" (dumpResults results)) := by
      simp [indexFile, hpngEnds, hrepl, lookupFile]
    rw [List.filterMap_cons_none hf1, List.filterMap_cons_some hf2]
    rw [List.filter_cons_of_pos (by simp)]
    have htail : (List.filterMap (indexFile
        (("img-0000012345.json", FileContent.json (dumpResults results)) ::
          ("img-0000012345.png", FileContent.img image) :: s))
        (List.map Prod.fst s)).filter
        (fun v => v.image == "img-0000012345.png") = [] := by
      rw [List.filter_eq_nil_iff]
      intro v hv
      rw [List.mem_filterMap] at hv
      obtain ⟨fn, hfn, hf⟩ := hv
      have himg := indexFile_image _ _ _ hf
      have hne : v.image ≠ "img-0000012345.png" := by
        rw [himg]
        intro hEq
        exact h1 (hEq ▸ hfn)
      simpa using hne
    rw [htail]
  · intro r hr
    simp only [dumpResults, recordsOf, List.mem_map] at hr
    obtain ⟨c, _, rfl⟩ := hr
    exact ⟨c.id, c.score, rfl⟩

/-- Witness for the amended C3: writing into the empty store and listing
yields exactly the one visit with tag `0000012345`. -/
theorem claim3_store_roundtrip_witness :
    (indexVisits (save_data [] 7 [Class.mk 281 (92/100)] 12345
        "png")).filter (fun v => v.image == "img-0000012345.png") =
      [Visit.mk "img-0000012345.png"
        (dumpResults [Class.mk 281 (92/100)])] :=
  (claim3_store_roundtrip [] 7 [Class.mk 281 (92/100)] (by simp [listdir])
    (by simp [listdir])).1

theorem decDigitsAux_eq_digits (fuel : ℕ) :
    ∀ n : ℕ, n ≤ fuel → decDigitsAux fuel n = Nat.digits 10 n := by
  induction fuel with
  | zero =>
    intro n hn
    have h0 : n = 0 := Nat.le_zero.mp hn
    subst h0
    simp [decDigitsAux]
  | succ fuel ih =>
    intro n hn
    by_cases h0 : n = 0
    · subst h0
      simp [decDigitsAux]
    · rw [Nat.digits_def' (by norm_num : (1:ℕ) < 10)
        (Nat.pos_of_ne_zero h0)]
      simp only [decDigitsAux, h0, if_false]
      congr 1
      apply ih
      have hdiv : n / 10 < n :=
        Nat.div_lt_self (Nat.pos_of_ne_zero h0) (by norm_num)
      omega

theorem decDigits_eq_digits (n : ℕ) (h0 : n ≠ 0) :
    decDigits n = (Nat.digits 10 n).reverse := by
  simp [decDigits, h0, decDigitsAux_eq_digits n n le_rfl]

theorem charVal_digitChar : ∀ d : ℕ, d < 10 →
    charVal (Nat.digitChar d) = d := by decide

theorem ofDigits_replicate_zero (b k : ℕ) :
    Nat.ofDigits b (List.replicate k 0) = 0 := by
  induction k with
  | zero => simp [Nat.ofDigits_nil]
  | succ k ih => simp [List.replicate_succ, Nat.ofDigits_cons, ih]

theorem untag_tagOf : ∀ ms : ℕ, untag (tagOf ms) = ms := by
  intro ms
  by_cases h0 : ms = 0
  · subst h0
    decide
  · have hd : decDigits ms = (Nat.digits 10 ms).reverse :=
      decDigits_eq_digits ms h0
    have hlt : ∀ d ∈ decDigits ms, d < 10 := by
      rw [hd]
      intro d hdm
      exact Nat.digits_lt_base (by norm_num) (List.mem_reverse.mp hdm)
    show Nat.ofDigits 10
        (((List.replicate (10 - (decDigits ms).length) '0' ++
          (decDigits ms).map Nat.digitChar).map charVal).reverse) = ms
    rw [List.map_append, List.map_map, List.map_replicate]
    have hzero : charVal '0' = 0 := rfl
    rw [hzero]
    have hmap : (decDigits ms).map (charVal ∘ Nat.digitChar) =
        decDigits ms := by
      have hcongr := List.map_congr_left
        (fun d hdm => charVal_digitChar d (hlt d hdm))
      simpa [Function.comp] using hcongr
    rw [hmap, List.reverse_append, List.reverse_replicate, hd,
      List.reverse_reverse, Nat.ofDigits_append,
      ofDigits_replicate_zero, Nat.ofDigits_digits]
    simp

theorem tagOf_injective : Function.Injective tagOf :=
  Function.LeftInverse.injective untag_tagOf

theorem decDigits_length_le (ms : ℕ) (h : ms < 10 ^ 10) :
    (decDigits ms).length ≤ 10 := by
  by_cases h0 : ms = 0
  · subst h0
    simp [decDigits]
  · rw [decDigits_eq_digits ms h0, List.length_reverse,
      Nat.digits_len 10 ms (by norm_num) h0]
    have hlog := (Nat.lt_pow_iff_log_lt (by norm_num) h0).mp h
    omega

theorem tagOf_length (ms : ℕ) (h : ms < 10 ^ 10) :
    (tagOf ms).length = 10 := by
  show (List.replicate (10 - (decDigits ms).length) '0' ++
    (decDigits ms).map Nat.digitChar).length = 10
  rw [List.length_append, List.length_replicate, List.length_map]
  have := decDigits_length_le ms h
  omega

/-- Counterexample to claim C6 as stated: `time.monotonic` is only
non-decreasing, and two persist operations that observe the same
millisecond reading (a monotone sequence) are assigned the same tag. -/
theorem claim6_counterexample :
    List.Chain' (· ≤ ·) [12345, 12345] ∧
    ¬ (saveTags [12345, 12345]).Nodup := by
  constructor
  · simp [List.chain'_cons, List.chain'_singleton]
  · decide

/-- Claim C6 as amended: when every persist operation observes a strictly
larger millisecond clock reading than the previous one, the assigned tags
are pairwise distinct; each tag is the zero-padded decimal rendering of its
reading — it reads back to the reading, and is exactly 10 characters long
whenever the reading is below `10^10` milliseconds. -/
theorem claim6_tags_unique_and_zero_padded (readings : List ℕ)
    (h : List.Chain' (· < ·) readings) :
    (saveTags readings).Nodup ∧
    ∀ ms ∈ readings, untag (tagOf ms) = ms ∧
      (ms < 10 ^ 10 → (tagOf ms).length = 10) := by
  constructor
  · have hpw : readings.Pairwise (· < ·) := List.chain'_iff_pairwise.mp h
    have hnd : readings.Nodup := hpw.imp Nat.ne_of_lt
    exact hnd.map tagOf_injective
  · exact fun ms _ => ⟨untag_tagOf ms, fun hlt => tagOf_length ms hlt⟩

/-- Witness for the amended C6: two strictly increasing readings yield
distinct, 10-character tags. -/
theorem claim6_tags_unique_and_zero_padded_witness :
    (saveTags [100, 12345]).Nodup ∧ (tagOf 12345).length = 10 :=
  ⟨(claim6_tags_unique_and_zero_padded [100, 12345]
      (by norm_num [List.chain'_cons, List.chain'_singleton])).1,
   ((claim6_tags_unique_and_zero_padded [100, 12345]
      (by norm_num [List.chain'_cons, List.chain'_singleton])).2
     12345 (by decide)).2 (by norm_num)⟩

end BirdFeeder
